import Mathlib

/-!
# Verification of `computeSales.py`

A shallow embedding of the repository's single script `src/computeSales.py`,
which joins a JSON price catalogue against a JSON sales record, aggregates
per-product quantities and costs, and renders a fixed-width report written
both to the display stream and to the file `SalesResults.txt`.

Modelling conventions:
* JSON numbers (prices, quantities) are modelled as exact rationals `ℚ`;
  the script's Python floats carry the same values exactly on the decimal
  literals the spec's data model allows, with rounding performed only at
  render time (`fmtFixed`).
* Python `dict`s are modelled as insertion-ordered association lists:
  assigning to an existing key updates its value in place (keeping its
  position), assigning to a fresh key appends it.
* `print(s)` is modelled as emitting the line `s`; the byte stream carried
  by the display is the concatenation of each emitted line followed by a
  newline character, exactly as Python's `print` terminates each call.
* Wall-clock sampling (`time.time()`) is not computable from the inputs;
  the elapsed duration is passed to `main` as an explicit `ℚ` parameter.
* The dynamic (untyped) semantics of the script is embedded separately
  (`Json`-level definitions) so that exception behaviour on ill-shaped
  input can be settled: fallible Python operations return `Except PyErr`.
-/

namespace ComputeSales

/-! ## String formatting helpers (Python format-spec semantics) -/

/-- `n` copies of the character `c` (Python `c * n`). -/
def rep (n : Nat) (c : Char) : String :=
  String.mk (List.replicate n c)

/-- Python `f"{s:>w}"`: right-align `s` in a field of width `w`,
padding with spaces on the left; strings longer than `w` are unchanged. -/
def alignRight (w : Nat) (s : String) : String :=
  rep (w - s.length) ' ' ++ s

/-- Python `f"{s:<w}"`: left-align `s` in a field of width `w`,
padding with spaces on the right; strings longer than `w` are unchanged. -/
def alignLeft (w : Nat) (s : String) : String :=
  s ++ rep (w - s.length) ' '

/-- Python `f"{s:^w}"`: centre `s` in a field of width `w`; the extra
padding character of an odd pad goes to the right, as in CPython. -/
def alignCenter (w : Nat) (s : String) : String :=
  rep ((w - s.length) / 2) ' ' ++ s ++ rep (w - s.length - (w - s.length) / 2) ' '

/-- Round a rational to the nearest integer, ties to even
(the rounding used by CPython's fixed-point float formatting). -/
def roundHalfEven (x : ℚ) : ℤ :=
  let f : ℤ := ⌊x⌋
  let r : ℚ := x - (f : ℚ)
  if r < 1 / 2 then f
  else if 1 / 2 < r then f + 1
  else if f % 2 = 0 then f else f + 1

/-- Left-pad a digit string with zeros to length `p`. -/
def padZeros (p : Nat) (s : String) : String :=
  rep (p - s.length) '0' ++ s

/-- Python `f"{x:.pf}"` on the exact value `x`: fixed-point rendering with
`p` fractional digits, rounding half to even. -/
def fmtFixed (x : ℚ) (p : Nat) : String :=
  let n : ℤ := roundHalfEven (x * ((10 : ℚ) ^ p))
  let sign : String := if n < 0 then "-" else ""
  let a : Nat := n.natAbs
  if p = 0 then sign ++ toString a
  else sign ++ toString (a / 10 ^ p) ++ "." ++ padZeros p (toString (a % 10 ^ p))

/-- Python `f"{x}"` (i.e. `str(x)`) for a numeric value: integers print as
integers. The shortest-repr rendering of non-integral floats is abstracted
as the rational's own representation; no report in scope depends on it. -/
def pyNumStr (x : ℚ) : String :=
  if x.den = 1 then toString x.num else toString x

/-! ## Data model (spec §3) and record-level `compute_total_cost`

`CatEntry` and `Sale` are the spec's `CatalogueEntry` / `SaleRecord`:
the shapes the script reads via `item['title']`, `item['price']`,
`sale['Product']`, `sale['Quantity']` on well-formed input. -/

structure CatEntry where
  title : String
  price : ℚ
deriving DecidableEq, Repr

structure Sale where
  product : String
  quantity : ℚ
deriving DecidableEq, Repr

/-- Python `d[k]` lookup on an association-list dict: the first (unique)
matching key. -/
def pyDictGet? {α : Type} : List (String × α) → String → Option α
  | [], _ => none
  | (k, v) :: d, k' => if k = k' then some v else pyDictGet? d k'

/-- Python `d[k] = v`: update in place if `k` is present (keeping its
position), append otherwise. -/
def pyDictSet {α : Type} (d : List (String × α)) (k : String) (v : α) :
    List (String × α) :=
  if d.any (fun p => p.1 = k) then
    d.map (fun p => if p.1 = k then (k, v) else p)
  else
    d ++ [(k, v)]

/-- The dict comprehension
`{item['title']: item['price'] for item in price_catalogue}`:
a single forward pass, later duplicate titles overwriting earlier prices. -/
def buildPriceDict (cat : List CatEntry) : List (String × ℚ) :=
  cat.foldl (fun d e => pyDictSet d e.title e.price) []

/-- The warning printed for a sale whose product is not in the catalogue. -/
def warnMsg (p : String) : String :=
  "Warning: Product ID '" ++ p ++ "' not found in the price catalogue."

/-- The state accumulated by the loop of `compute_total_cost`:
the three returned values plus the warnings it prints (writer-style). -/
structure Summary where
  totalCost : ℚ
  totalQuantity : ℚ
  perProduct : List (String × ℚ × ℚ)
  warnings : List String
deriving DecidableEq, Repr

/-- One iteration of the `for sale in sales_record` loop. -/
def processSale (pd : List (String × ℚ)) (st : Summary) (s : Sale) : Summary :=
  match pyDictGet? pd s.product with
  | some price =>
    { st with
      totalCost := st.totalCost + price * s.quantity
      totalQuantity := st.totalQuantity + s.quantity
      perProduct :=
        match pyDictGet? st.perProduct s.product with
        | none => st.perProduct ++ [(s.product, (s.quantity, price * s.quantity))]
        | some pq =>
            pyDictSet st.perProduct s.product
              (pq.1 + s.quantity, pq.2 + price * s.quantity) }
  | none => { st with warnings := st.warnings ++ [warnMsg s.product] }

/-- `compute_total_cost(price_catalogue, sales_record)` on well-formed
(data-model) input: returns grand totals, the insertion-ordered
`unitary_cost` mapping, and the warnings printed along the way. -/
def compute_total_cost (cat : List CatEntry) (sales : List Sale) : Summary :=
  sales.foldl (processSale (buildPriceDict cat)) ⟨0, 0, [], []⟩

/-! Predicates used to state properties of the join. -/

/-- A sale is matched when its product is a key of the price lookup. -/
def matchedB (pd : List (String × ℚ)) (s : Sale) : Bool :=
  (pyDictGet? pd s.product).isSome

/-- The price the script charges for a matched sale (0 as a don't-care
default for unmatched ones). -/
def priceOf (pd : List (String × ℚ)) (s : Sale) : ℚ :=
  (pyDictGet? pd s.product).getD 0

/-- First-occurrence deduplication relative to an already-seen set. -/
def firstOccurAux (seen : List String) : List String → List String
  | [] => []
  | x :: xs =>
      if x ∈ seen then firstOccurAux seen xs
      else x :: firstOccurAux (x :: seen) xs

/-- The order of first occurrence of the elements of a list. -/
def firstOccur (l : List String) : List String :=
  firstOccurAux [] l

/-! ## Report rendering (the string built in `main`, lines 110-134) -/

/-- `"+" + "-" * 32 + "+" + "-" * 32 + "+" + "-" * 32 + "+\n"` -/
def lineSep : String :=
  "+" ++ rep 32 '-' ++ "+" ++ rep 32 '-' ++ "+" ++ rep 32 '-' ++ "+\n"

/-- The header row with centred column titles. -/
def headerRow : String :=
  "| " ++ alignCenter 30 "Product" ++ " | " ++ alignCenter 30 "Quantity" ++ " | "
    ++ alignCenter 30 "Total Unit Cost" ++ " |\n"

/-- One data row of the table: product, accumulated quantity and cost. -/
def dataRow (p : String) (q c : ℚ) : String :=
  "| " ++ alignRight 30 p ++ " | " ++ alignRight 30 (pyNumStr q) ++ " | "
    ++ alignRight 30 ("$" ++ fmtFixed c 2) ++ " |\n"

/-- The totals row. -/
def totalsRow (tq tc : ℚ) : String :=
  "| " ++ alignLeft 30 "Total Cost of Sales" ++ " | " ++ alignRight 30 (pyNumStr tq)
    ++ " | " ++ alignRight 30 ("$" ++ fmtFixed tc 2) ++ " |\n"

/-- The `'x' * 32` filler the elapsed-time row uses in place of a third cell. -/
def xFill : String :=
  rep 32 'x'

/-- The elapsed-time row: label, duration with six fractional digits, and
the `'x' * 32` filler closing the line. -/
def elapsedRow (e : ℚ) : String :=
  "| " ++ alignLeft 30 "Time Elapsed" ++ " | "
    ++ alignRight 30 (fmtFixed e 6 ++ " seconds") ++ " |" ++ xFill ++ "|\n"

/-- `report_str`: separators, header, one row per `unitary_cost` entry in
iteration order, totals row, elapsed row. -/
def renderReport (uc : List (String × ℚ × ℚ)) (tq tc e : ℚ) : String :=
  lineSep ++ headerRow ++ lineSep
    ++ String.join (uc.map (fun r => dataRow r.1 r.2.1 r.2.2))
    ++ lineSep ++ totalsRow tq tc ++ lineSep ++ elapsedRow e ++ lineSep

/-! Statement-side helpers: the loop's effect on `unitary_cost` alone, and
the per-product sums the spec's properties compare the mapping against. -/

/-- The effect of one loop iteration on `unitary_cost` only (the loop's
update of that dict reads no other accumulator). -/
def ucStep (pd : List (String × ℚ)) (uc : List (String × ℚ × ℚ)) (s : Sale) :
    List (String × ℚ × ℚ) :=
  match pyDictGet? pd s.product with
  | some price =>
    match pyDictGet? uc s.product with
    | none => uc ++ [(s.product, (s.quantity, price * s.quantity))]
    | some pq => pyDictSet uc s.product (pq.1 + s.quantity, pq.2 + price * s.quantity)
  | none => uc

/-- Sum of the quantities of the matched sales of product `p`. -/
def mQtySum (pd : List (String × ℚ)) (p : String) (l : List Sale) : ℚ :=
  (((l.filter (matchedB pd)).filter (fun s => s.product = p)).map
    (fun s => s.quantity)).sum

/-- Sum of the line costs of the matched sales of product `p`. -/
def mCostSum (pd : List (String × ℚ)) (p : String) (l : List Sale) : ℚ :=
  (((l.filter (matchedB pd)).filter (fun s => s.product = p)).map
    (fun s => priceOf pd s * s.quantity)).sum


/-! ## Dynamic (untyped) semantics: the script on arbitrary JSON values

`json.load` can hand `compute_total_cost` any JSON value; field accesses
and arithmetic then either succeed or raise. `PyErr` models the exceptions
that `main` does not catch. Arithmetic is modelled on numbers and booleans
(Python booleans are integers); operand combinations outside that fragment
raise `typeError`, as the corresponding Python additions onto the integer
accumulators do. -/

inductive Json where
  | null
  | bool (b : Bool)
  | num (q : ℚ)
  | str (s : String)
  | arr (items : List Json)
  | obj (fields : List (String × Json))

inductive PyErr where
  | keyError (k : String)
  | typeError
deriving DecidableEq, Repr

/-- The numeric value of a JSON scalar under Python arithmetic coercion
(`True` counts as 1, `False` as 0); `none` for non-numeric values. -/
def numVal? : Json → Option ℚ
  | .num q => some q
  | .bool b => some (if b then 1 else 0)
  | _ => none

/-- Python `==` on the (hashable) values used as dict keys here: numbers
and booleans compare by numeric value, strings and `None` by identity.
Unhashable values (lists, dicts) are rejected before insertion, so the
catch-all `false` branch is never consulted between two stored keys. -/
def jKeyEq (a b : Json) : Bool :=
  match numVal? a, numVal? b with
  | some x, some y => x == y
  | _, _ =>
    match a, b with
    | .str s, .str t => s == t
    | .null, .null => true
    | _, _ => false

/-- Whether a JSON value may be a dict key (Python hashability). -/
def jHashable : Json → Bool
  | .arr _ => false
  | .obj _ => false
  | _ => true

/-- Field lookup in a JSON object's field list (first match). -/
def jFieldGet? : List (String × Json) → String → Option Json
  | [], _ => none
  | (k, v) :: fs, k' => if k = k' then some v else jFieldGet? fs k'

/-- Python `item[key]` with a string key: `KeyError` when the key is
missing from a dict, `TypeError` when `item` is not a dict. -/
def jGet (j : Json) (k : String) : Except PyErr Json :=
  match j with
  | .obj fs =>
    match jFieldGet? fs k with
    | some v => .ok v
    | none => .error (.keyError k)
  | _ => .error .typeError

/-- Python iteration over a JSON value: lists yield their items, dicts
their keys, strings their characters; numbers, booleans and `None` are
not iterable. -/
def jIter (j : Json) : Except PyErr (List Json) :=
  match j with
  | .arr items => .ok items
  | .obj fs => .ok (fs.map (fun f => .str f.1))
  | .str s => .ok (s.data.map (fun c => .str (String.mk [c])))
  | _ => .error .typeError

/-- Python `a * b` restricted to the numeric fragment the accumulators can
absorb; other operand shapes raise `TypeError` (directly, or at the
subsequent addition onto the integer accumulator). -/
def pyMul (a b : Json) : Except PyErr ℚ :=
  match numVal? a, numVal? b with
  | some x, some y => .ok (x * y)
  | _, _ => .error .typeError

/-- Python `str(v)` as interpolated by the script's f-strings. The
shortest-repr of composite and non-integral values is abstracted; values
reaching the renderer on well-shaped runs are strings and numbers. -/
def pyStrOf : Json → String
  | .str s => s
  | .num q => pyNumStr q
  | .bool b => if b then "True" else "False"
  | .null => "None"
  | .arr _ => "<list>"
  | .obj _ => "<dict>"

/-- A dict keyed by JSON values (`jKeyEq`): lookup. -/
def jDictGet? : List (Json × Json) → Json → Option Json
  | [], _ => none
  | (k, v) :: d, k' => if jKeyEq k k' then some v else jDictGet? d k'

/-- A dict keyed by JSON values: `d[k] = v` (update in place or append). -/
def jDictSet (d : List (Json × Json)) (k : Json) (v : Json) :
    List (Json × Json) :=
  if d.any (fun p => jKeyEq p.1 k) then
    d.map (fun p => if jKeyEq p.1 k then (k, v) else p)
  else
    d ++ [(k, v)]

/-- The dict comprehension of line 61, on arbitrary JSON items: each item
must be a dict bearing `'title'` and `'price'`, and the title must be
hashable. -/
def buildDictJson : List Json → List (Json × Json) →
    Except PyErr (List (Json × Json))
  | [], d => .ok d
  | item :: rest, d =>
    match jGet item "title" with
    | .error e => .error e
    | .ok k =>
      match jGet item "price" with
      | .error e => .error e
      | .ok v =>
        if jHashable k then buildDictJson rest (jDictSet d k v)
        else .error .typeError

/-- The loop state of the dynamic `compute_total_cost`: the per-product
keys are arbitrary JSON values; accumulated numbers are exact rationals. -/
structure JsonSummary where
  totalCost : ℚ
  totalQuantity : ℚ
  perProduct : List (Json × ℚ × ℚ)
  warnings : List String

/-- Lookup in the dynamic per-product mapping. -/
def jUcGet? : List (Json × ℚ × ℚ) → Json → Option (ℚ × ℚ)
  | [], _ => none
  | (k, v) :: d, k' => if jKeyEq k k' then some v else jUcGet? d k'

/-- `d[k] = v` on the dynamic per-product mapping. -/
def jUcSet (d : List (Json × ℚ × ℚ)) (k : Json) (v : ℚ × ℚ) :
    List (Json × ℚ × ℚ) :=
  if d.any (fun p => jKeyEq p.1 k) then
    d.map (fun p => if jKeyEq p.1 k then (k, v) else p)
  else
    d ++ [(k, v)]

/-- The `for sale in sales_record` loop on arbitrary JSON sales: each sale
must be a dict bearing `'Product'` and `'Quantity'`; a matched sale's
price and quantity must be numeric, an unmatched sale only warns. -/
def salesLoopJson (pd : List (Json × Json)) :
    List Json → JsonSummary → Except PyErr JsonSummary
  | [], st => .ok st
  | sale :: rest, st =>
    match jGet sale "Product" with
    | .error e => .error e
    | .ok p =>
      match jGet sale "Quantity" with
      | .error e => .error e
      | .ok q =>
        match jDictGet? pd p with
        | some price =>
          match pyMul price q with
          | .error e => .error e
          | .ok lineCost =>
            match numVal? q with
            | none => .error .typeError
            | some qn =>
              salesLoopJson pd rest
                { totalCost := st.totalCost + lineCost
                  totalQuantity := st.totalQuantity + qn
                  perProduct :=
                    match jUcGet? st.perProduct p with
                    | none => st.perProduct ++ [(p, (qn, lineCost))]
                    | some pq => jUcSet st.perProduct p (pq.1 + qn, pq.2 + lineCost)
                  warnings := st.warnings }
        | none =>
          salesLoopJson pd rest
            { st with warnings := st.warnings ++ [warnMsg (pyStrOf p)] }

/-- `compute_total_cost` on arbitrary JSON documents: either the summary
(totals, per-product mapping, printed warnings) or the exception raised. -/
def compute_total_cost_json (price_catalogue sales_record : Json) :
    Except PyErr JsonSummary :=
  match jIter price_catalogue with
  | .error e => .error e
  | .ok items =>
    match buildDictJson items [] with
    | .error e => .error e
    | .ok pd =>
      match jIter sales_record with
      | .error e => .error e
      | .ok sales => salesLoopJson pd sales ⟨0, 0, [], []⟩

/-! ## `load_json_file` and `main` -/

/-- What the file system and JSON parser yield for a path: the file is
missing, its content is not valid JSON, or it parses to a document. -/
inductive LoadResult where
  | notFound
  | invalidJson
  | ok (j : Json)

def notFoundMsg (filename : String) : String :=
  "Error: File '" ++ filename ++ "' not found."

def invalidJsonMsg (filename : String) : String :=
  "Error: Invalid JSON format in '" ++ filename ++ "'."

def usageMsg : String :=
  "Usage: python computeSales.py priceCatalogue.json salesRecord.json"

/-- `load_json_file(filename)`: the parsed document, or `none` together
with the diagnostic line printed (naming the file) on failure. -/
def load_json_file (env : String → LoadResult) (filename : String) :
    Option Json × List String :=
  match env filename with
  | .ok j => (some j, [])
  | .notFound => (none, [notFoundMsg filename])
  | .invalidJson => (none, [invalidJsonMsg filename])

/-- The observable effects of a run: the lines passed to `print` (in
order) and the content written to `SalesResults.txt`, if any. -/
structure RunOutput where
  stdout : List String
  file : Option String
deriving DecidableEq, Repr

/-- The bytes a sequence of `print` calls delivers: each printed line
followed by the newline `print` appends. -/
def linesBytes : List String → String
  | [] => ""
  | l :: ls => l ++ "\n" ++ linesBytes ls

/-- The byte stream a run delivers to the display. -/
def displayBytes (out : RunOutput) : String :=
  linesBytes out.stdout

/-- The `report_str` a run renders from a computed summary. -/
def reportOf (sm : JsonSummary) (elapsed : ℚ) : String :=
  renderReport (sm.perProduct.map (fun r => (pyStrOf r.1, r.2)))
    sm.totalQuantity sm.totalCost elapsed

/-- `main()`: `argv` models `sys.argv` (script name first), `env` the file
system and parser, `elapsed` the measured wall-clock duration. The result
is the run's observable output, or the exception that escapes uncaught. -/
def main (argv : List String) (env : String → LoadResult) (elapsed : ℚ) :
    Except PyErr RunOutput :=
  if argv.length ≠ 3 then .ok ⟨[usageMsg], none⟩
  else
    match load_json_file env (argv.getD 1 "") with
    | (none, msgs) => .ok ⟨msgs, none⟩
    | (some price_catalogue, _) =>
      match load_json_file env (argv.getD 2 "") with
      | (none, msgs) => .ok ⟨msgs, none⟩
      | (some sales_record, _) =>
        match compute_total_cost_json price_catalogue sales_record with
        | .error e => .error e
        | .ok sm =>
          .ok ⟨sm.warnings ++ [reportOf sm elapsed], some (reportOf sm elapsed)⟩

/-! Well-shapedness of input documents (the shapes of spec §6 on which the
field accesses and arithmetic of the script all succeed). -/

/-- An object whose `title` field is a string and whose `price` field is
a number. -/
def catItemOk : Json → Bool
  | .obj fs =>
    (match jFieldGet? fs "title" with
     | some (.str _) => true
     | _ => false)
    && (match jFieldGet? fs "price" with
        | some (.num _) => true
        | _ => false)
  | _ => false

/-- An object whose `Product` field is a string and whose `Quantity`
field is a number. -/
def saleItemOk : Json → Bool
  | .obj fs =>
    (match jFieldGet? fs "Product" with
     | some (.str _) => true
     | _ => false)
    && (match jFieldGet? fs "Quantity" with
        | some (.num _) => true
        | _ => false)
  | _ => false

/-- A JSON array of objects, each with a string `title` and numeric
`price`. -/
def wellShapedCat : Json → Bool
  | .arr items => items.all catItemOk
  | _ => false

/-- A JSON array of objects, each with a string `Product` and numeric
`Quantity`. -/
def wellShapedSales : Json → Bool
  | .arr items => items.all saleItemOk
  | _ => false

/-- Every value stored in the price dict is numeric (an invariant of the
dict built from a well-shaped catalogue). -/
def allNumVals (pd : List (Json × Json)) : Bool :=
  pd.all (fun e => (numVal? e.2).isSome)

/-! Concrete sample inputs, used by the witness theorems. -/

def sampleCat : List CatEntry :=
  [⟨"Apple", 2⟩, ⟨"Pen", 3 / 2⟩]

def sampleCatRev : List CatEntry :=
  [⟨"Pen", 3 / 2⟩, ⟨"Apple", 2⟩]

def dupTitleCat : List CatEntry :=
  [⟨"Apple", 2⟩, ⟨"Apple", 5⟩]

def sampleSales : List Sale :=
  [⟨"Apple", 3⟩, ⟨"Pen", 2⟩, ⟨"Ghost", 1⟩]

def dupSales : List Sale :=
  [⟨"Apple", 3⟩, ⟨"Apple", 2⟩]

def sampleJsonCat : Json :=
  .arr [.obj [("title", .str "Apple"), ("price", .num 2)]]

def sampleJsonSales : Json :=
  .arr [.obj [("Product", .str "Apple"), ("Quantity", .num 3)]]

def sampleArgv : List String :=
  ["computeSales.py", "priceCatalogue.json", "salesRecord.json"]

/-- A file system carrying the sample catalogue and sales files. -/
def envOk : String → LoadResult := fun f =>
  if f = "priceCatalogue.json" then .ok sampleJsonCat
  else if f = "salesRecord.json" then .ok sampleJsonSales
  else .notFound

/-- A file system whose catalogue file is a valid-JSON array holding an
object with no fields at all. -/
def envBadCat : String → LoadResult := fun f =>
  if f = "priceCatalogue.json" then .ok (.arr [.obj []])
  else if f = "salesRecord.json" then .ok (.arr [])
  else .notFound

/-- A file system carrying two empty JSON arrays. -/
def envEmpty : String → LoadResult := fun f =>
  if f = "priceCatalogue.json" then .ok (.arr [])
  else if f = "salesRecord.json" then .ok (.arr [])
  else .notFound

/-- A file system with no files. -/
def envNF : String → LoadResult := fun _ => .notFound

/-- A file system whose every file holds malformed JSON. -/
def envIJ : String → LoadResult := fun _ => .invalidJson

/-- A file system where only the catalogue file exists. -/
def envOkNF : String → LoadResult := fun f =>
  if f = "priceCatalogue.json" then .ok (.arr []) else .notFound

/-- A file system where the catalogue parses and everything else is
malformed JSON. -/
def envOkIJ : String → LoadResult := fun f =>
  if f = "priceCatalogue.json" then .ok (.arr []) else .invalidJson

/-! ## Association-list dict lemmas -/

theorem pyDictGet?_append_none {α : Type} (d₁ d₂ : List (String × α)) (k : String)
    (h : pyDictGet? d₁ k = none) :
    pyDictGet? (d₁ ++ d₂) k = pyDictGet? d₂ k := by
  induction d₁ with
  | nil => simp
  | cons e d ih =>
    obtain ⟨k₀, v₀⟩ := e
    by_cases hk : k₀ = k
    · simp [pyDictGet?, hk] at h
    · simp only [List.cons_append, pyDictGet?, if_neg hk] at h ⊢
      exact ih h

theorem pyDictGet?_append_some {α : Type} (d₁ d₂ : List (String × α)) (k : String)
    (v : α) (h : pyDictGet? d₁ k = some v) :
    pyDictGet? (d₁ ++ d₂) k = some v := by
  induction d₁ with
  | nil => simp [pyDictGet?] at h
  | cons e d ih =>
    obtain ⟨k₀, v₀⟩ := e
    by_cases hk : k₀ = k
    · simp only [pyDictGet?, if_pos hk] at h
      simp only [List.cons_append, pyDictGet?, if_pos hk, h]
    · simp only [pyDictGet?, if_neg hk] at h
      simp only [List.cons_append, pyDictGet?, if_neg hk]
      exact ih h

theorem pyDictGet?_isSome_eq_any {α : Type} (d : List (String × α)) (k : String) :
    (pyDictGet? d k).isSome = d.any (fun p => p.1 = k) := by
  induction d with
  | nil => simp [pyDictGet?]
  | cons e d ih =>
    obtain ⟨k₀, v₀⟩ := e
    by_cases hk : k₀ = k <;> simp [pyDictGet?, hk, ih]

theorem pyDictGet?_eq_none_of_not_any {α : Type} (d : List (String × α)) (k : String)
    (h : d.any (fun p => p.1 = k) = false) :
    pyDictGet? d k = none := by
  have := pyDictGet?_isSome_eq_any d k
  rw [h] at this
  exact Option.not_isSome_iff_eq_none.mp (by simp [this])

theorem pyDictGet?_map_set_self {α : Type} (d : List (String × α)) (k : String) (v : α)
    (h : d.any (fun p => p.1 = k) = true) :
    pyDictGet? (d.map (fun p => if p.1 = k then (k, v) else p)) k = some v := by
  induction d with
  | nil => simp at h
  | cons e d ih =>
    obtain ⟨k₀, v₀⟩ := e
    by_cases hk : k₀ = k
    · subst hk
      show pyDictGet? ((if (k₀, v₀).1 = k₀ then (k₀, v) else (k₀, v₀)) ::
        List.map (fun p => if p.1 = k₀ then (k₀, v) else p) d) k₀ = some v
      rw [if_pos (rfl : (k₀, v₀).1 = k₀)]
      simp [pyDictGet?]
    · have h' : d.any (fun p => p.1 = k) = true := by simpa [hk] using h
      simp only [List.map_cons]
      rw [show (if (k₀, v₀).1 = k then (k, v) else (k₀, v₀)) = (k₀, v₀) from if_neg hk]
      simp only [pyDictGet?, if_neg hk]
      exact ih h'

theorem pyDictGet?_map_set_other {α : Type} (d : List (String × α)) (k k' : String)
    (v : α) (h : k ≠ k') :
    pyDictGet? (d.map (fun p => if p.1 = k then (k, v) else p)) k' = pyDictGet? d k' := by
  induction d with
  | nil => simp
  | cons e d ih =>
    obtain ⟨k₀, v₀⟩ := e
    by_cases hk : k₀ = k
    · subst hk
      show pyDictGet? ((if (k₀, v₀).1 = k₀ then (k₀, v) else (k₀, v₀)) ::
        List.map (fun p => if p.1 = k₀ then (k₀, v) else p) d) k' = pyDictGet? ((k₀, v₀) :: d) k'
      rw [if_pos (rfl : (k₀, v₀).1 = k₀)]
      simp [pyDictGet?, h, ih]
    · simp only [List.map_cons]
      rw [show (if (k₀, v₀).1 = k then (k, v) else (k₀, v₀)) = (k₀, v₀) from if_neg hk]
      simp only [pyDictGet?, ih]

theorem pyDictSet_get_self {α : Type} (d : List (String × α)) (k : String) (v : α) :
    pyDictGet? (pyDictSet d k v) k = some v := by
  unfold pyDictSet
  split
  · exact pyDictGet?_map_set_self d k v (by assumption)
  · rename_i h
    have h' : d.any (fun p => p.1 = k) = false := by
      cases hh : d.any (fun p => p.1 = k) with
      | true => exact absurd hh h
      | false => rfl
    rw [pyDictGet?_append_none d _ k (pyDictGet?_eq_none_of_not_any d k h')]
    simp [pyDictGet?]

theorem pyDictSet_get_other {α : Type} (d : List (String × α)) (k k' : String) (v : α)
    (h : k ≠ k') :
    pyDictGet? (pyDictSet d k v) k' = pyDictGet? d k' := by
  unfold pyDictSet
  split
  · exact pyDictGet?_map_set_other d k k' v h
  · cases hd : pyDictGet? d k' with
    | some w => rw [pyDictGet?_append_some d _ k' w hd]
    | none =>
      rw [pyDictGet?_append_none d _ k' hd]
      simp [pyDictGet?, h]

theorem pyDictSet_keys_of_any {α : Type} (d : List (String × α)) (k : String) (v : α)
    (h : d.any (fun p => p.1 = k) = true) :
    (pyDictSet d k v).map Prod.fst = d.map Prod.fst := by
  unfold pyDictSet
  rw [if_pos h, List.map_map]
  apply List.map_congr_left
  intro p _
  by_cases hp : p.1 = k <;> simp [hp]

theorem pyDictSet_keys_of_not_any {α : Type} (d : List (String × α)) (k : String) (v : α)
    (h : d.any (fun p => p.1 = k) = false) :
    (pyDictSet d k v).map Prod.fst = d.map Prod.fst ++ [k] := by
  unfold pyDictSet
  rw [if_neg (by simp [h])]
  simp

theorem mem_keys_iff_any {α : Type} (d : List (String × α)) (k : String) :
    k ∈ d.map Prod.fst ↔ d.any (fun p => p.1 = k) = true := by
  simp [List.any_eq_true, List.mem_map]

/-! ## First-occurrence order lemmas -/

theorem firstOccurAux_congr (l : List String) :
    ∀ s₁ s₂ : List String, (∀ a, a ∈ s₁ ↔ a ∈ s₂) →
      firstOccurAux s₁ l = firstOccurAux s₂ l := by
  induction l with
  | nil => intro _ _ _; rfl
  | cons x xs ih =>
    intro s₁ s₂ h
    by_cases hx : x ∈ s₁
    · simp only [firstOccurAux, if_pos hx, if_pos ((h x).mp hx)]
      exact ih _ _ h
    · simp only [firstOccurAux, if_neg hx, if_neg (fun c => hx ((h x).mpr c))]
      exact congrArg (x :: ·) (ih _ _ (fun a => by simp [List.mem_cons, h a]))

theorem firstOccurAux_nodup (l : List String) :
    ∀ seen : List String,
      (firstOccurAux seen l).Nodup ∧ ∀ x ∈ firstOccurAux seen l, x ∉ seen := by
  induction l with
  | nil => intro seen; simp [firstOccurAux]
  | cons x xs ih =>
    intro seen
    by_cases hx : x ∈ seen
    · simp only [firstOccurAux, if_pos hx]
      exact ih seen
    · simp only [firstOccurAux, if_neg hx]
      obtain ⟨hnd, hmem⟩ := ih (x :: seen)
      refine ⟨List.nodup_cons.mpr ⟨fun hc => (hmem x hc) (List.mem_cons_self x seen), hnd⟩, ?_⟩
      intro y hy
      rcases List.mem_cons.mp hy with rfl | hy'
      · exact hx
      · exact fun hys => (hmem y hy') (List.mem_cons.mpr (Or.inr hys))
/-! ## Characterization of the aggregation loop -/

theorem foldl_processSale_totals (pd : List (String × ℚ)) (l : List Sale) :
    ∀ st : Summary,
      (l.foldl (processSale pd) st).totalCost
        = st.totalCost
          + ((l.filter (matchedB pd)).map (fun s => priceOf pd s * s.quantity)).sum
      ∧ (l.foldl (processSale pd) st).totalQuantity
        = st.totalQuantity + ((l.filter (matchedB pd)).map (fun s => s.quantity)).sum
      ∧ (l.foldl (processSale pd) st).warnings
        = st.warnings
          ++ (l.filter (fun s => ! matchedB pd s)).map (fun s => warnMsg s.product) := by
  induction l with
  | nil => intro st; simp
  | cons s l ih =>
    intro st
    obtain ⟨ih1, ih2, ih3⟩ := ih (processSale pd st s)
    cases h : pyDictGet? pd s.product with
    | some price =>
      have hm : matchedB pd s = true := by simp [matchedB, h]
      refine ⟨?_, ?_, ?_⟩
      · rw [List.foldl_cons, ih1]
        simp [processSale, h, List.filter_cons, hm, priceOf]
        ring
      · rw [List.foldl_cons, ih2]
        simp [processSale, h, List.filter_cons, hm]
        ring
      · rw [List.foldl_cons, ih3]
        simp [processSale, h, List.filter_cons, hm]
    | none =>
      have hm : matchedB pd s = false := by simp [matchedB, h]
      refine ⟨?_, ?_, ?_⟩
      · rw [List.foldl_cons, ih1]
        simp [processSale, h, List.filter_cons, hm]
      · rw [List.foldl_cons, ih2]
        simp [processSale, h, List.filter_cons, hm]
      · rw [List.foldl_cons, ih3]
        simp [processSale, h, List.filter_cons, hm]

theorem foldl_processSale_perProduct (pd : List (String × ℚ)) (l : List Sale) :
    ∀ st : Summary,
      (l.foldl (processSale pd) st).perProduct = l.foldl (ucStep pd) st.perProduct := by
  induction l with
  | nil => intro st; rfl
  | cons s l ih =>
    intro st
    rw [List.foldl_cons, List.foldl_cons, ih]
    congr 1
    cases h : pyDictGet? pd s.product <;> simp [processSale, ucStep, h]

theorem ucFold_keys (pd : List (String × ℚ)) (l : List Sale) :
    ∀ uc : List (String × ℚ × ℚ),
      (l.foldl (ucStep pd) uc).map Prod.fst
        = uc.map Prod.fst
          ++ firstOccurAux (uc.map Prod.fst)
              ((l.filter (matchedB pd)).map (fun s => s.product)) := by
  induction l with
  | nil => intro uc; simp [firstOccurAux]
  | cons s l ih =>
    intro uc
    rw [List.foldl_cons]
    cases h : pyDictGet? pd s.product with
    | none =>
      have hm : matchedB pd s = false := by simp [matchedB, h]
      rw [show ucStep pd uc s = uc from by simp [ucStep, h], ih uc]
      simp [List.filter_cons, hm]
    | some price =>
      have hm : matchedB pd s = true := by simp [matchedB, h]
      cases hu : pyDictGet? uc s.product with
      | some pq =>
        have hany : uc.any (fun q => q.1 = s.product) = true := by
          rw [← pyDictGet?_isSome_eq_any, hu]; rfl
        have hmem : s.product ∈ uc.map Prod.fst :=
          (mem_keys_iff_any uc s.product).mpr hany
        rw [show ucStep pd uc s
              = pyDictSet uc s.product (pq.1 + s.quantity, pq.2 + price * s.quantity)
            from by simp [ucStep, h, hu]]
        rw [ih _, pyDictSet_keys_of_any _ _ _ hany]
        simp [List.filter_cons, hm, firstOccurAux, hmem]
      | none =>
        have hany : uc.any (fun q => q.1 = s.product) = false := by
          have := pyDictGet?_isSome_eq_any uc s.product
          rw [hu] at this
          simpa using this.symm
        have hmem : s.product ∉ uc.map Prod.fst := by
          rw [mem_keys_iff_any, hany]
          exact fun hc => nomatch hc
        rw [show ucStep pd uc s
              = uc ++ [(s.product, (s.quantity, price * s.quantity))]
            from by simp [ucStep, h, hu]]
        rw [ih _]
        simp only [List.map_append, List.map_cons, List.map_nil]
        have hcg : firstOccurAux (uc.map Prod.fst ++ [s.product])
              ((l.filter (matchedB pd)).map (fun s => s.product))
            = firstOccurAux (s.product :: uc.map Prod.fst)
              ((l.filter (matchedB pd)).map (fun s => s.product)) :=
          firstOccurAux_congr _ _ _ (fun a => by
            simp [List.mem_append, List.mem_cons, or_comm])
        rw [hcg]
        simp [List.filter_cons, hm, firstOccurAux, hmem]

theorem ucFold_lookup (pd : List (String × ℚ)) (l : List Sale) :
    ∀ (uc : List (String × ℚ × ℚ)) (p : String),
      pyDictGet? (l.foldl (ucStep pd) uc) p
        = match pyDictGet? uc p with
          | some v => some (v.1 + mQtySum pd p l, v.2 + mCostSum pd p l)
          | none =>
            if ((l.filter (matchedB pd)).any (fun s => s.product = p)) = true
            then some (mQtySum pd p l, mCostSum pd p l)
            else none := by
  induction l with
  | nil =>
    intro uc p
    cases hu : pyDictGet? uc p <;> simp [hu, mQtySum, mCostSum]
  | cons s l ih =>
    intro uc p
    rw [List.foldl_cons]
    cases h : pyDictGet? pd s.product with
    | none =>
      have hm : matchedB pd s = false := by simp [matchedB, h]
      have hq : mQtySum pd p (s :: l) = mQtySum pd p l := by
        simp [mQtySum, List.filter_cons, hm]
      have hc : mCostSum pd p (s :: l) = mCostSum pd p l := by
        simp [mCostSum, List.filter_cons, hm]
      rw [show ucStep pd uc s = uc from by simp [ucStep, h], ih uc p, hq, hc]
      simp [List.filter_cons, hm]
    | some price =>
      have hm : matchedB pd s = true := by simp [matchedB, h]
      by_cases hp : s.product = p
      · subst hp
        have hq : mQtySum pd s.product (s :: l)
            = s.quantity + mQtySum pd s.product l := by
          simp [mQtySum, List.filter_cons, hm]
        have hc : mCostSum pd s.product (s :: l)
            = price * s.quantity + mCostSum pd s.product l := by
          simp [mCostSum, List.filter_cons, hm, priceOf, h]
        cases hu : pyDictGet? uc s.product with
        | none =>
          rw [show ucStep pd uc s
                = uc ++ [(s.product, (s.quantity, price * s.quantity))]
              from by simp [ucStep, h, hu]]
          rw [ih _ s.product]
          have happ : pyDictGet? (uc ++ [(s.product, (s.quantity, price * s.quantity))])
              s.product = some (s.quantity, price * s.quantity) := by
            rw [pyDictGet?_append_none _ _ _ hu]
            simp [pyDictGet?]
          rw [happ]
          rw [hq]
          rw [hc]
          simp [List.filter_cons, hm, add_assoc]
        | some pq =>
          rw [show ucStep pd uc s
                = pyDictSet uc s.product (pq.1 + s.quantity, pq.2 + price * s.quantity)
              from by simp [ucStep, h, hu]]
          rw [ih _ s.product, pyDictSet_get_self, hq, hc]
          simp [add_assoc]
      · have hq : mQtySum pd p (s :: l) = mQtySum pd p l := by
          simp [mQtySum, List.filter_cons, hm, hp]
        have hc : mCostSum pd p (s :: l) = mCostSum pd p l := by
          simp [mCostSum, List.filter_cons, hm, hp]
        have hstep : pyDictGet? (ucStep pd uc s) p = pyDictGet? uc p := by
          cases hu : pyDictGet? uc s.product with
          | none =>
            rw [show ucStep pd uc s
                  = uc ++ [(s.product, (s.quantity, price * s.quantity))]
                from by simp [ucStep, h, hu]]
            cases hup : pyDictGet? uc p with
            | some w => rw [pyDictGet?_append_some _ _ _ _ hup]
            | none =>
              rw [pyDictGet?_append_none _ _ _ hup]
              simp [pyDictGet?, hp]
          | some pq =>
            rw [show ucStep pd uc s
                  = pyDictSet uc s.product (pq.1 + s.quantity, pq.2 + price * s.quantity)
                from by simp [ucStep, h, hu]]
            exact pyDictSet_get_other _ _ _ _ hp
        rw [ih _ p, hstep, hq, hc]
        simp [List.filter_cons, hm, hp]

/-! ## The price lookup built from the catalogue -/

theorem buildPriceDict_foldl_lookup (cat : List CatEntry) :
    ∀ (d : List (String × ℚ)) (t : String),
      pyDictGet? (cat.foldl (fun d e => pyDictSet d e.title e.price) d) t
        = match cat.reverse.find? (fun e => e.title = t) with
          | some e => some e.price
          | none => pyDictGet? d t := by
  induction cat with
  | nil => intro d t; simp
  | cons e cat ih =>
    intro d t
    rw [List.foldl_cons, ih _ t, List.reverse_cons, List.find?_append]
    cases hf : cat.reverse.find? (fun e => e.title = t) with
    | some e' => simp
    | none =>
      by_cases ht : e.title = t
      · simp only [Option.none_or]
        rw [show (List.find? (fun e => decide (e.title = t)) [e]) = some e from by
          simp [List.find?, ht]]
        rw [← ht, pyDictSet_get_self]
      · simp only [Option.none_or]
        rw [show (List.find? (fun e => decide (e.title = t)) [e]) = none from by
          simp [List.find?, ht]]
        exact pyDictSet_get_other d e.title t e.price ht

theorem buildPriceDict_lookup (cat : List CatEntry) (t : String) :
    pyDictGet? (buildPriceDict cat) t
      = (cat.reverse.find? (fun e => e.title = t)).map (fun e => e.price) := by
  rw [show buildPriceDict cat = cat.foldl (fun d e => pyDictSet d e.title e.price) []
    from rfl]
  rw [buildPriceDict_foldl_lookup cat [] t]
  cases hf : cat.reverse.find? (fun e => e.title = t) <;> simp [pyDictGet?]

theorem buildPriceDict_isSome_iff (cat : List CatEntry) (t : String) :
    (pyDictGet? (buildPriceDict cat) t).isSome = true ↔ t ∈ cat.map CatEntry.title := by
  rw [buildPriceDict_lookup]
  simp [List.find?_isSome, List.mem_map]

theorem matchedB_congr_perm (cat cat' : List CatEntry) (hp : cat.Perm cat') (s : Sale) :
    matchedB (buildPriceDict cat) s = matchedB (buildPriceDict cat') s := by
  have h1 := buildPriceDict_isSome_iff cat s.product
  have h2 := buildPriceDict_isSome_iff cat' s.product
  have hmem : s.product ∈ cat.map CatEntry.title ↔ s.product ∈ cat'.map CatEntry.title :=
    (hp.map CatEntry.title).mem_iff
  unfold matchedB
  exact Bool.eq_iff_iff.mpr (h1.trans (hmem.trans h2.symm))

/-! ## Claim theorems -/

/-- C1: for every catalogue and sales sequence, `compute_total_cost`
returns a total cost equal to the sum of `price(product) * quantity` over
exactly the sales whose product appears in the catalogue-derived price
lookup, and a total quantity equal to the sum of `quantity` over those
matched sales only; an empty sales sequence yields totals 0, 0 and an
empty per-product mapping. -/
theorem join_correctness (cat : List CatEntry) (sales : List Sale) :
    (compute_total_cost cat sales).totalCost
      = ((sales.filter (matchedB (buildPriceDict cat))).map
          (fun s => priceOf (buildPriceDict cat) s * s.quantity)).sum
    ∧ (compute_total_cost cat sales).totalQuantity
      = ((sales.filter (matchedB (buildPriceDict cat))).map (fun s => s.quantity)).sum
    ∧ compute_total_cost cat [] = ⟨0, 0, [], []⟩ := by
  obtain ⟨h1, h2, _⟩ :=
    foldl_processSale_totals (buildPriceDict cat) sales ⟨0, 0, [], []⟩
  exact ⟨by simpa [compute_total_cost] using h1,
    by simpa [compute_total_cost] using h2, rfl⟩

/-- C2: a sale whose product is absent from the price lookup changes
neither the totals nor the per-product mapping, each unmatched occurrence
produces exactly one warning, and a sales sequence of only unmatched
products yields zero totals and an empty mapping rather than a failure. -/
theorem unmatched_isolation (cat : List CatEntry) (pre post : List Sale) (s : Sale)
    (h : pyDictGet? (buildPriceDict cat) s.product = none) :
    (compute_total_cost cat (pre ++ s :: post)).totalCost
        = (compute_total_cost cat (pre ++ post)).totalCost
    ∧ (compute_total_cost cat (pre ++ s :: post)).totalQuantity
        = (compute_total_cost cat (pre ++ post)).totalQuantity
    ∧ (compute_total_cost cat (pre ++ s :: post)).perProduct
        = (compute_total_cost cat (pre ++ post)).perProduct
    ∧ (∀ sales : List Sale,
        (compute_total_cost cat sales).warnings
          = (sales.filter (fun t => ! matchedB (buildPriceDict cat) t)).map
              (fun t => warnMsg t.product))
    ∧ (∀ sales : List Sale,
        (∀ t ∈ sales, matchedB (buildPriceDict cat) t = false) →
        (compute_total_cost cat sales).totalCost = 0
        ∧ (compute_total_cost cat sales).totalQuantity = 0
        ∧ (compute_total_cost cat sales).perProduct = []) := by
  have hm : matchedB (buildPriceDict cat) s = false := by simp [matchedB, h]
  have hfil : (pre ++ s :: post).filter (matchedB (buildPriceDict cat))
      = (pre ++ post).filter (matchedB (buildPriceDict cat)) := by
    simp [List.filter_append, List.filter_cons, hm]
  obtain ⟨ha1, ha2, _⟩ :=
    foldl_processSale_totals (buildPriceDict cat) (pre ++ s :: post) ⟨0, 0, [], []⟩
  obtain ⟨hb1, hb2, _⟩ :=
    foldl_processSale_totals (buildPriceDict cat) (pre ++ post) ⟨0, 0, [], []⟩
  refine ⟨?_, ?_, ?_, ?_, ?_⟩
  · show (compute_total_cost cat (pre ++ s :: post)).totalCost = _
    rw [show compute_total_cost cat (pre ++ s :: post)
        = (pre ++ s :: post).foldl (processSale (buildPriceDict cat)) ⟨0, 0, [], []⟩
      from rfl, ha1,
      show compute_total_cost cat (pre ++ post)
        = (pre ++ post).foldl (processSale (buildPriceDict cat)) ⟨0, 0, [], []⟩
      from rfl, hb1, hfil]
  · rw [show compute_total_cost cat (pre ++ s :: post)
        = (pre ++ s :: post).foldl (processSale (buildPriceDict cat)) ⟨0, 0, [], []⟩
      from rfl, ha2,
      show compute_total_cost cat (pre ++ post)
        = (pre ++ post).foldl (processSale (buildPriceDict cat)) ⟨0, 0, [], []⟩
      from rfl, hb2, hfil]
  · rw [show compute_total_cost cat (pre ++ s :: post)
        = (pre ++ s :: post).foldl (processSale (buildPriceDict cat)) ⟨0, 0, [], []⟩
      from rfl,
      foldl_processSale_perProduct _ _ _,
      show compute_total_cost cat (pre ++ post)
        = (pre ++ post).foldl (processSale (buildPriceDict cat)) ⟨0, 0, [], []⟩
      from rfl,
      foldl_processSale_perProduct _ _ _]
    show (pre ++ s :: post).foldl (ucStep (buildPriceDict cat)) [] = _
    rw [List.foldl_append, List.foldl_cons,
      show ucStep (buildPriceDict cat) (pre.foldl (ucStep (buildPriceDict cat)) []) s
        = pre.foldl (ucStep (buildPriceDict cat)) [] from by simp [ucStep, h],
      List.foldl_append]
  · intro sales
    obtain ⟨_, _, hw⟩ :=
      foldl_processSale_totals (buildPriceDict cat) sales ⟨0, 0, [], []⟩
    simpa [compute_total_cost] using hw
  · intro sales hall
    have hnil : sales.filter (matchedB (buildPriceDict cat)) = [] := by
      rw [List.filter_eq_nil_iff]
      intro t ht
      simp [hall t ht]
    obtain ⟨hc1, hc2, _⟩ :=
      foldl_processSale_totals (buildPriceDict cat) sales ⟨0, 0, [], []⟩
    refine ⟨by simpa [compute_total_cost, hnil] using hc1,
      by simpa [compute_total_cost, hnil] using hc2, ?_⟩
    have hkeys := ucFold_keys (buildPriceDict cat) sales []
    rw [hnil] at hkeys
    simp only [List.map_nil, firstOccurAux, List.nil_append] at hkeys
    have : (compute_total_cost cat sales).perProduct.map Prod.fst = [] := by
      rw [show compute_total_cost cat sales
          = sales.foldl (processSale (buildPriceDict cat)) ⟨0, 0, [], []⟩ from rfl,
        foldl_processSale_perProduct _ _ _]
      exact hkeys
    exact List.map_eq_nil_iff.mp this

/-- C2 witness: dropping the unmatched `Ghost` sale leaves the sample
run's totals and per-product mapping unchanged, the run warns once for
it, and an all-unmatched sales list aggregates to zero. -/
theorem unmatched_isolation_witness :
    (compute_total_cost sampleCat [⟨"Apple", 3⟩, ⟨"Ghost", 1⟩, ⟨"Pen", 2⟩]).totalCost
        = (compute_total_cost sampleCat [⟨"Apple", 3⟩, ⟨"Pen", 2⟩]).totalCost
    ∧ (compute_total_cost sampleCat [⟨"Apple", 3⟩, ⟨"Ghost", 1⟩, ⟨"Pen", 2⟩]).perProduct
        = (compute_total_cost sampleCat [⟨"Apple", 3⟩, ⟨"Pen", 2⟩]).perProduct
    ∧ (compute_total_cost sampleCat [⟨"Ghost", 1⟩]).warnings
        = [warnMsg "Ghost"]
    ∧ (compute_total_cost sampleCat [⟨"Ghost", 1⟩]).totalCost = 0 := by
  have h := unmatched_isolation sampleCat [⟨"Apple", 3⟩] [⟨"Pen", 2⟩] ⟨"Ghost", 1⟩ (by rfl)
  refine ⟨h.1, h.2.2.1, ?_, ?_⟩
  · rw [h.2.2.2.1 [⟨"Ghost", 1⟩]]; rfl
  · exact (h.2.2.2.2 [⟨"Ghost", 1⟩] (by decide)).1

/-- C4: the iteration order of the per-product mapping (and hence the row
order of the report) is the order of first occurrence of each matched
product in the sales sequence, regardless of catalogue order. -/
theorem order_preservation (cat : List CatEntry) (sales : List Sale) :
    (compute_total_cost cat sales).perProduct.map Prod.fst
      = firstOccur
          ((sales.filter (matchedB (buildPriceDict cat))).map (fun s => s.product))
    ∧ ∀ cat' : List CatEntry, cat.Perm cat' →
        (compute_total_cost cat' sales).perProduct.map Prod.fst
          = (compute_total_cost cat sales).perProduct.map Prod.fst := by
  have hkeys : ∀ c : List CatEntry,
      (compute_total_cost c sales).perProduct.map Prod.fst
        = firstOccur
            ((sales.filter (matchedB (buildPriceDict c))).map (fun s => s.product)) := by
    intro c
    rw [show compute_total_cost c sales
        = sales.foldl (processSale (buildPriceDict c)) ⟨0, 0, [], []⟩ from rfl,
      foldl_processSale_perProduct _ _ _, ucFold_keys _ _ []]
    simp [firstOccur]
  refine ⟨hkeys cat, ?_⟩
  intro cat' hperm
  rw [hkeys cat, hkeys cat']
  have hfil : sales.filter (matchedB (buildPriceDict cat'))
      = sales.filter (matchedB (buildPriceDict cat)) :=
    List.filter_congr (fun t _ => (matchedB_congr_perm cat cat' hperm t).symm)
  rw [hfil]

/-- C4 witness: on the sample sales list the mapping's keys come in
first-occurrence order `Apple`, `Pen`, and reversing the catalogue leaves
that order unchanged. -/
theorem order_preservation_witness :
    (compute_total_cost sampleCat sampleSales).perProduct.map Prod.fst
      = ["Apple", "Pen"]
    ∧ (compute_total_cost sampleCatRev sampleSales).perProduct.map Prod.fst
      = (compute_total_cost sampleCat sampleSales).perProduct.map Prod.fst := by
  have hperm : sampleCat.Perm sampleCatRev := by
    unfold sampleCat sampleCatRev
    exact List.Perm.swap _ _ _
  refine ⟨?_, (order_preservation sampleCat sampleSales).2 sampleCatRev hperm⟩
  rw [(order_preservation sampleCat sampleSales).1]
  decide

/-- C5: all sales of the same matched product accumulate into a single
per-product entry holding the sums of their quantities and line costs;
the mapping's keys are duplicate-free. -/
theorem duplicate_accumulation (cat : List CatEntry) (sales : List Sale) (p : String)
    (h : ((sales.filter (matchedB (buildPriceDict cat))).any
      (fun s => s.product = p)) = true) :
    pyDictGet? (compute_total_cost cat sales).perProduct p
      = some (mQtySum (buildPriceDict cat) p sales, mCostSum (buildPriceDict cat) p sales)
    ∧ ((compute_total_cost cat sales).perProduct.map Prod.fst).Nodup := by
  constructor
  · rw [show compute_total_cost cat sales
        = sales.foldl (processSale (buildPriceDict cat)) ⟨0, 0, [], []⟩ from rfl,
      foldl_processSale_perProduct _ _ _, ucFold_lookup _ _ [] p]
    simp [pyDictGet?, h]
  · rw [show compute_total_cost cat sales
        = sales.foldl (processSale (buildPriceDict cat)) ⟨0, 0, [], []⟩ from rfl,
      foldl_processSale_perProduct _ _ _, ucFold_keys _ _ []]
    simpa using (firstOccurAux_nodup _ []).1

/-- C5 witness: two `Apple` sales of 3 and 2 units at price 2 merge into
the single entry `(5, 10)`, and the mapping has no duplicate keys. -/
theorem duplicate_accumulation_witness :
    pyDictGet? (compute_total_cost sampleCat dupSales).perProduct "Apple"
      = some (5, 10)
    ∧ ((compute_total_cost sampleCat dupSales).perProduct.map Prod.fst).Nodup := by
  have h := duplicate_accumulation sampleCat dupSales "Apple" (by decide)
  refine ⟨?_, h.2⟩
  rw [h.1]
  simp [mQtySum, mCostSum, matchedB, priceOf, buildPriceDict, pyDictSet, pyDictGet?,
    dupSales, sampleCat, List.filter]
  norm_num

/-- C9: the price lookup maps a duplicated title to the price of the last
catalogue entry bearing it, and every matched sale of that product is
costed at that last price (the accumulated cost is that price times the
accumulated quantity). -/
theorem duplicate_title_last_wins (cat : List CatEntry) (t : String) :
    pyDictGet? (buildPriceDict cat) t
      = (cat.reverse.find? (fun e => e.title = t)).map (fun e => e.price)
    ∧ ∀ (sales : List Sale) (price : ℚ),
        pyDictGet? (buildPriceDict cat) t = some price →
        ((sales.filter (matchedB (buildPriceDict cat))).any
          (fun s => s.product = t)) = true →
        pyDictGet? (compute_total_cost cat sales).perProduct t
          = some (mQtySum (buildPriceDict cat) t sales,
              price * mQtySum (buildPriceDict cat) t sales) := by
  refine ⟨buildPriceDict_lookup cat t, ?_⟩
  intro sales price hpr hany
  have hcost : mCostSum (buildPriceDict cat) t sales
      = price * mQtySum (buildPriceDict cat) t sales := by
    unfold mCostSum mQtySum
    rw [List.map_congr_left (g := fun s : Sale => price * s.quantity) ?_]
    · exact List.sum_map_mul_left _ _ _
    · intro s hs
      have hpt : s.product = t := by
        have := (List.mem_filter.mp hs).2
        simpa using this
      simp [priceOf, hpt, hpr]
  rw [show compute_total_cost cat sales
      = sales.foldl (processSale (buildPriceDict cat)) ⟨0, 0, [], []⟩ from rfl,
    foldl_processSale_perProduct _ _ _, ucFold_lookup _ _ [] t]
  simp [pyDictGet?, hany, hcost]

/-- C9 witness: with two `Apple` entries priced 2 then 5, the lookup
yields 5, and an `Apple` sale of 3 units is costed `3 * 5 = 15`. -/
theorem duplicate_title_last_wins_witness :
    pyDictGet? (buildPriceDict dupTitleCat) "Apple" = some 5
    ∧ pyDictGet? (compute_total_cost dupTitleCat [⟨"Apple", 3⟩]).perProduct "Apple"
      = some (3, 5 * 3) := by
  have h := duplicate_title_last_wins dupTitleCat "Apple"
  refine ⟨by rw [h.1]; decide, ?_⟩
  have h2 := h.2 [⟨"Apple", 3⟩] 5 (by decide) (by decide)
  rw [h2]
  simp [mQtySum, matchedB, buildPriceDict, pyDictSet, pyDictGet?, dupTitleCat, List.filter]

/-- C8: any invocation whose argument count is not exactly two positional
arguments (three `sys.argv` entries) prints only the usage message and
writes no file, whatever the file system holds — so no input is read. -/
theorem usage_guard (argv : List String) (env : String → LoadResult) (e : ℚ)
    (h : argv.length ≠ 3) :
    main argv env e = .ok ⟨[usageMsg], none⟩ := by
  unfold main
  rw [if_pos h]

/-- C8 witness: zero, one and three positional arguments each produce the
usage message and no file, on file systems with and without files. -/
theorem usage_guard_witness :
    main ["computeSales.py"] envNF 0 = .ok ⟨[usageMsg], none⟩
    ∧ main ["computeSales.py", "priceCatalogue.json"] envNF 0 = .ok ⟨[usageMsg], none⟩
    ∧ main ["computeSales.py", "a", "b", "c"] envOk 0 = .ok ⟨[usageMsg], none⟩ :=
  ⟨usage_guard ["computeSales.py"] envNF 0 (by decide),
    usage_guard ["computeSales.py", "priceCatalogue.json"] envNF 0 (by decide),
    usage_guard ["computeSales.py", "a", "b", "c"] envOk 0 (by decide)⟩

/-- C6: when an input path is missing or holds invalid JSON, the run
prints exactly the diagnostic naming that path and stops: no aggregation
output appears and no file is written (the result is the same whatever
the other document holds). -/
theorem loader_failure_aborts (argv : List String) (env : String → LoadResult)
    (e : ℚ) (h3 : argv.length = 3) :
    (env (argv.getD 1 "") = .notFound →
      main argv env e = .ok ⟨[notFoundMsg (argv.getD 1 "")], none⟩)
    ∧ (env (argv.getD 1 "") = .invalidJson →
      main argv env e = .ok ⟨[invalidJsonMsg (argv.getD 1 "")], none⟩)
    ∧ (∀ pc : Json, env (argv.getD 1 "") = .ok pc →
        env (argv.getD 2 "") = .notFound →
      main argv env e = .ok ⟨[notFoundMsg (argv.getD 2 "")], none⟩)
    ∧ (∀ pc : Json, env (argv.getD 1 "") = .ok pc →
        env (argv.getD 2 "") = .invalidJson →
      main argv env e = .ok ⟨[invalidJsonMsg (argv.getD 2 "")], none⟩) := by
  have hcond : ¬ argv.length ≠ 3 := fun hc => hc h3
  refine ⟨fun h1 => ?_, fun h1 => ?_, fun pc h1 h2 => ?_, fun pc h1 h2 => ?_⟩
  · simp at h1
    unfold main
    rw [if_neg hcond]
    simp [load_json_file, h1]
  · simp at h1
    unfold main
    rw [if_neg hcond]
    simp [load_json_file, h1]
  · simp at h1 h2
    unfold main
    rw [if_neg hcond]
    simp [load_json_file, h1, h2]
  · simp at h1 h2
    unfold main
    rw [if_neg hcond]
    simp [load_json_file, h1, h2]

/-- C6 witness: the four loader-failure shapes on the sample invocation
each print the message naming the failing path and write nothing. -/
theorem loader_failure_aborts_witness :
    main sampleArgv envNF 0 = .ok ⟨[notFoundMsg "priceCatalogue.json"], none⟩
    ∧ main sampleArgv envIJ 0 = .ok ⟨[invalidJsonMsg "priceCatalogue.json"], none⟩
    ∧ main sampleArgv envOkNF 0 = .ok ⟨[notFoundMsg "salesRecord.json"], none⟩
    ∧ main sampleArgv envOkIJ 0 = .ok ⟨[invalidJsonMsg "salesRecord.json"], none⟩ :=
  ⟨(loader_failure_aborts sampleArgv envNF 0 (by decide)).1 (by rfl),
    (loader_failure_aborts sampleArgv envIJ 0 (by decide)).2.1 (by rfl),
    (loader_failure_aborts sampleArgv envOkNF 0 (by decide)).2.2.1 (.arr [])
      (by rfl) (by rfl),
    (loader_failure_aborts sampleArgv envOkIJ 0 (by decide)).2.2.2 (.arr [])
      (by rfl) (by rfl)⟩

/-- C10: the elapsed-time row carries the formatted duration in its second
column and closes with `'x' * 32` in place of a third cell, while the
third cells of the header, data and totals rows sit between space-padded
`" | "` / `" |\n"` delimiters; the filler is 32 `x` characters. -/
theorem elapsed_row_filler (e q c tq tc : ℚ) (p : String)
    (uc : List (String × ℚ × ℚ)) :
    renderReport uc tq tc e
      = lineSep ++ headerRow ++ lineSep
          ++ String.join (uc.map (fun r => dataRow r.1 r.2.1 r.2.2))
          ++ lineSep ++ totalsRow tq tc ++ lineSep ++ elapsedRow e ++ lineSep
    ∧ (∃ a, elapsedRow e
        = a ++ alignRight 30 (fmtFixed e 6 ++ " seconds") ++ " |" ++ xFill ++ "|\n")
    ∧ xFill = String.mk (List.replicate 32 'x')
    ∧ (∀ ch ∈ xFill.data, ch = 'x')
    ∧ (∃ a, dataRow p q c = a ++ " | " ++ alignRight 30 ("$" ++ fmtFixed c 2) ++ " |\n")
    ∧ (∃ a, totalsRow tq tc
        = a ++ " | " ++ alignRight 30 ("$" ++ fmtFixed tc 2) ++ " |\n")
    ∧ (∃ a, headerRow = a ++ " | " ++ alignCenter 30 "Total Unit Cost" ++ " |\n")
    ∧ alignRight 30 ("$" ++ fmtFixed c 2)
        = rep (30 - ("$" ++ fmtFixed c 2).length) ' ' ++ ("$" ++ fmtFixed c 2) :=
  ⟨rfl,
    ⟨"| " ++ alignLeft 30 "Time Elapsed" ++ " | ", rfl⟩,
    rfl,
    by decide,
    ⟨"| " ++ alignRight 30 p ++ " | " ++ alignRight 30 (pyNumStr q), rfl⟩,
    ⟨"| " ++ alignLeft 30 "Total Cost of Sales" ++ " | " ++ alignRight 30 (pyNumStr tq), rfl⟩,
    ⟨"| " ++ alignCenter 30 "Product" ++ " | " ++ alignCenter 30 "Quantity", rfl⟩,
    rfl⟩

/-! ## Totality of the dynamic aggregation on well-shaped documents -/

theorem linesBytes_append (a b : List String) :
    linesBytes (a ++ b) = linesBytes a ++ linesBytes b := by
  induction a with
  | nil => simp [linesBytes]
  | cons x xs ih => simp [linesBytes, ih, String.append_assoc]

theorem jDictSet_allNumVals (d : List (Json × Json)) (k v : Json)
    (hd : allNumVals d = true) (hv : (numVal? v).isSome = true) :
    allNumVals (jDictSet d k v) = true := by
  unfold jDictSet allNumVals
  unfold allNumVals at hd
  rw [List.all_eq_true] at hd
  split
  · rw [List.all_eq_true]
    intro e he
    obtain ⟨e₀, he₀, rfl⟩ := List.mem_map.mp he
    by_cases hk : jKeyEq e₀.1 k = true
    · simp [hk, hv]
    · simp only [hk]
      simpa [hk] using hd e₀ he₀
  · rw [List.all_eq_true]
    intro e he
    rcases List.mem_append.mp he with he' | he'
    · exact hd e he'
    · rcases List.mem_singleton.mp he' with rfl
      exact hv

theorem jDictGet?_numVal (d : List (Json × Json)) (k v : Json)
    (hd : allNumVals d = true) (h : jDictGet? d k = some v) :
    (numVal? v).isSome = true := by
  induction d with
  | nil => simp [jDictGet?] at h
  | cons e d ih =>
    obtain ⟨k₀, v₀⟩ := e
    unfold allNumVals at hd
    rw [List.all_eq_true] at hd
    by_cases hk : jKeyEq k₀ k = true
    · simp only [jDictGet?, if_pos hk] at h
      rw [Option.some_inj] at h
      subst h
      simpa using hd (k₀, v₀) (List.mem_cons_self _ _)
    · simp only [jDictGet?, if_neg hk] at h
      refine ih ?_ h
      unfold allNumVals
      rw [List.all_eq_true]
      intro x hx
      exact hd x (List.mem_cons.mpr (Or.inr hx))

theorem buildDictJson_ok (items : List Json) :
    ∀ d : List (Json × Json),
      items.all catItemOk = true → allNumVals d = true →
      ∃ pd, buildDictJson items d = .ok pd ∧ allNumVals pd = true := by
  induction items with
  | nil => intro d _ hd; exact ⟨d, rfl, hd⟩
  | cons it items ih =>
    intro d hall hd
    rw [List.all_cons, Bool.and_eq_true] at hall
    obtain ⟨h1, h2⟩ := hall
    cases it with
    | obj fs =>
      cases ht : jFieldGet? fs "title" with
      | none => simp [catItemOk, ht] at h1
      | some tv =>
        cases hp : jFieldGet? fs "price" with
        | none => simp [catItemOk, ht, hp] at h1
        | some pv =>
          simp only [catItemOk, ht, hp, Bool.and_eq_true] at h1
          cases tv <;> simp at h1
          case str ts =>
          cases pv <;> simp at h1
          case num pq =>
          obtain ⟨pd, hpd, hnum⟩ :=
            ih (jDictSet d (.str ts) (.num pq)) h2
              (jDictSet_allNumVals d _ _ hd rfl)
          refine ⟨pd, ?_, hnum⟩
          simp [buildDictJson, jGet, ht, hp, jHashable, hpd]
    | null => simp [catItemOk] at h1
    | bool b => simp [catItemOk] at h1
    | num q => simp [catItemOk] at h1
    | str s => simp [catItemOk] at h1
    | arr xs => simp [catItemOk] at h1

theorem salesLoopJson_ok (pd : List (Json × Json)) (hpd : allNumVals pd = true)
    (sales : List Json) :
    ∀ st : JsonSummary, sales.all saleItemOk = true →
      ∃ sm, salesLoopJson pd sales st = .ok sm := by
  induction sales with
  | nil => intro st _; exact ⟨st, rfl⟩
  | cons sale rest ih =>
    intro st hall
    rw [List.all_cons, Bool.and_eq_true] at hall
    obtain ⟨h1, h2⟩ := hall
    cases sale with
    | obj fs =>
      cases hpr : jFieldGet? fs "Product" with
      | none => simp [saleItemOk, hpr] at h1
      | some p =>
        cases hq : jFieldGet? fs "Quantity" with
        | none => simp [saleItemOk, hpr, hq] at h1
        | some qv =>
          simp only [saleItemOk, hpr, hq, Bool.and_eq_true] at h1
          cases p <;> simp at h1
          case str ps =>
          cases qv <;> simp at h1
          case num qq =>
          cases hpdg : jDictGet? pd (.str ps) with
          | none =>
            obtain ⟨sm, hsm⟩ :=
              ih { st with warnings := st.warnings ++ [warnMsg (pyStrOf (.str ps))] } h2
            exact ⟨sm, by simp [salesLoopJson, jGet, hpr, hq, hpdg, hsm]⟩
          | some price =>
            have hnum := jDictGet?_numVal pd (.str ps) price hpd hpdg
            obtain ⟨x, hx⟩ := Option.isSome_iff_exists.mp hnum
            have hmul : pyMul price (.num qq) = .ok (x * qq) := by
              unfold pyMul
              rw [hx]
              rfl
            obtain ⟨sm, hsm⟩ := ih
              { totalCost := st.totalCost + x * qq
                totalQuantity := st.totalQuantity + qq
                perProduct :=
                  match jUcGet? st.perProduct (.str ps) with
                  | none => st.perProduct ++ [((.str ps), (qq, x * qq))]
                  | some pq => jUcSet st.perProduct (.str ps) (pq.1 + qq, pq.2 + x * qq)
                warnings := st.warnings } h2
            exact ⟨sm, by simp [salesLoopJson, jGet, hpr, hq, hpdg, hmul, numVal?, hsm]⟩
    | null => simp [saleItemOk] at h1
    | bool b => simp [saleItemOk] at h1
    | num q => simp [saleItemOk] at h1
    | str s => simp [saleItemOk] at h1
    | arr xs => simp [saleItemOk] at h1

theorem compute_total_cost_json_ok (pc sr : Json)
    (hc : wellShapedCat pc = true) (hs : wellShapedSales sr = true) :
    ∃ sm, compute_total_cost_json pc sr = .ok sm := by
  cases pc <;> simp [wellShapedCat] at hc
  case arr items =>
  cases sr <;> simp [wellShapedSales] at hs
  case arr sitems =>
  obtain ⟨pd, hpd, hnum⟩ := buildDictJson_ok items [] (List.all_eq_true.mpr hc) rfl
  obtain ⟨sm, hsm⟩ :=
    salesLoopJson_ok pd hnum sitems ⟨0, 0, [], []⟩ (List.all_eq_true.mpr hs)
  exact ⟨sm, by simp [compute_total_cost_json, jIter, hpd, hsm]⟩

/-- C3 counterexample: on a successful run (two empty arrays), the bytes
the display stream receives are the report plus the extra newline the
print routine appends, so the two sinks' contents are not byte-identical. -/
theorem display_file_bytes_differ :
    main sampleArgv envEmpty 0
      = .ok ⟨[reportOf ⟨0, 0, [], []⟩ 0], some (reportOf ⟨0, 0, [], []⟩ 0)⟩
    ∧ displayBytes ⟨[reportOf ⟨0, 0, [], []⟩ 0], some (reportOf ⟨0, 0, [], []⟩ 0)⟩
        = reportOf ⟨0, 0, [], []⟩ 0 ++ "\n"
    ∧ reportOf ⟨0, 0, [], []⟩ 0 ++ "\n" ≠ reportOf ⟨0, 0, [], []⟩ 0 := by
  refine ⟨rfl, by simp [displayBytes, linesBytes], ?_⟩
  intro hc
  have hlen := congrArg String.length hc
  rw [String.length_append, show ("\n" : String).length = 1 from rfl] at hlen
  omega

/-- C3 amended: on every successful run the same rendered report string is
passed to both sinks — the file receives it verbatim, while the display
stream receives any warning lines and then the report, each followed by
the newline that `print` appends (so the display bytes exceed the file
bytes by exactly that trailing newline, plus any warning lines). -/
theorem report_to_both_sinks (argv : List String) (env : String → LoadResult)
    (e : ℚ) (pc sr : Json) (sm : JsonSummary)
    (h3 : argv.length = 3)
    (h1 : env (argv.getD 1 "") = .ok pc)
    (h2 : env (argv.getD 2 "") = .ok sr)
    (hok : compute_total_cost_json pc sr = .ok sm) :
    main argv env e = .ok ⟨sm.warnings ++ [reportOf sm e], some (reportOf sm e)⟩
    ∧ displayBytes ⟨sm.warnings ++ [reportOf sm e], some (reportOf sm e)⟩
        = linesBytes sm.warnings ++ (reportOf sm e ++ "\n") := by
  constructor
  · simp at h1 h2
    unfold main
    rw [if_neg (fun hc => hc h3)]
    simp [load_json_file, h1, h2, hok]
  · show linesBytes (sm.warnings ++ [reportOf sm e]) = _
    rw [linesBytes_append]
    simp [linesBytes]

/-- C3 witness: the empty-arrays run delivers the report to both sinks,
the display bytes being the report followed by one newline. -/
theorem report_to_both_sinks_witness :
    main sampleArgv envEmpty 0
      = .ok ⟨[] ++ [reportOf ⟨0, 0, [], []⟩ 0], some (reportOf ⟨0, 0, [], []⟩ 0)⟩
    ∧ displayBytes ⟨[] ++ [reportOf ⟨0, 0, [], []⟩ 0], some (reportOf ⟨0, 0, [], []⟩ 0)⟩
        = linesBytes [] ++ (reportOf ⟨0, 0, [], []⟩ 0 ++ "\n") :=
  report_to_both_sinks sampleArgv envEmpty 0 (.arr []) (.arr []) ⟨0, 0, [], []⟩
    (by decide) rfl rfl rfl

/-- C7 counterexample: a pair of valid-JSON documents — the catalogue an
array holding one object with no fields — makes the run end in an
uncaught `KeyError` on `'title'`, which is neither a completed report nor
one of the specified diagnostics. -/
theorem missing_title_uncaught :
    main sampleArgv envBadCat 0 = .error (.keyError "title") := rfl

/-- C7 amended: the loader failures are handled (see the C6 theorem), and
for well-shaped documents — arrays of objects with a string `title` and
numeric `price`, resp. a string `Product` and numeric `Quantity` — the
aggregation raises no exception and the run completes, writing the
report; but ill-shaped documents such as an object lacking `title` escape
as uncaught exceptions. -/
theorem well_shaped_runs_complete (argv : List String) (env : String → LoadResult)
    (e : ℚ) (pc sr : Json)
    (h3 : argv.length = 3)
    (h1 : env (argv.getD 1 "") = .ok pc)
    (h2 : env (argv.getD 2 "") = .ok sr)
    (hc : wellShapedCat pc = true)
    (hs : wellShapedSales sr = true) :
    (∀ er : PyErr, compute_total_cost_json pc sr ≠ .error er)
    ∧ ∀ sm : JsonSummary, compute_total_cost_json pc sr = .ok sm →
        main argv env e
          = .ok ⟨sm.warnings ++ [reportOf sm e], some (reportOf sm e)⟩ := by
  obtain ⟨sm₀, hsm₀⟩ := compute_total_cost_json_ok pc sr hc hs
  constructor
  · intro er hcontra
    rw [hsm₀] at hcontra
    exact nomatch hcontra
  · intro sm hsm
    simp at h1 h2
    unfold main
    rw [if_neg (fun hcond => hcond h3)]
    simp [load_json_file, h1, h2, hsm]

/-- C7 witness: the empty-arrays run raises nothing and completes with
the empty report written. -/
theorem well_shaped_runs_complete_witness :
    compute_total_cost_json (.arr []) (.arr []) ≠ .error PyErr.typeError
    ∧ main sampleArgv envEmpty 0
        = .ok ⟨[] ++ [reportOf ⟨0, 0, [], []⟩ 0], some (reportOf ⟨0, 0, [], []⟩ 0)⟩ :=
  have h := well_shaped_runs_complete sampleArgv envEmpty 0 (.arr []) (.arr [])
    (by decide) rfl rfl rfl rfl
  ⟨h.1 PyErr.typeError, h.2 ⟨0, 0, [], []⟩ rfl⟩

end ComputeSales
